import Mathlib

/-!
Verification development for the SavingGrace food-donation backend.

Each definition is a shallow embedding of a function from the repository,
translated from the Python source under `src/backend/`.  Machine numbers are
modelled as `Int`/`Nat`, Python dictionaries as association lists, fallible
code as `Except`, and the DynamoDB table as an explicit list of records that
each operation threads through.  The theorems at the end of the file settle
the frozen claims about the spec.
-/

set_option maxRecDepth 4000

/-- The application error taxonomy from `lib/errors.py`: `ValidationError`
(400), `NotFoundError` (404), `AuthorizationError` (403) and `DatabaseError`
(500), all subtypes of `SavingGraceError`. -/
inductive SGErr where
  | validationError (message : String)
  | notFoundError (message : String)
  | authorizationError (message : String)
  | databaseError (message : String)
deriving DecidableEq, Repr

/-- The HTTP status code each error subtype carries, from `lib/errors.py`. -/
def SGErr.statusCode : SGErr → Nat
  | .validationError _ => 400
  | .notFoundError _ => 404
  | .authorizationError _ => 403
  | .databaseError _ => 500

/-! ### Inventory adjustment (`functions/inventory/adjust_inventory.py`) -/

/-- An inventory item stored under `PK = INVENTORY#<category>`,
`SK = ITEM#<item_id>`.  Only the fields the adjustment logic reads are
modelled; the quantity is an integer. -/
structure InvItem where
  category : String
  name : String
  quantity : Int
deriving DecidableEq, Repr

/-- The lookup in `adjust_inventory.lambda_handler`:
`db.query(Key("PK").eq("INVENTORY#" + category), Attr("name").eq(item_name))`
followed by taking `existing_items[0]` — the first stored item with the
given category and name. -/
def findInvItem (inv : List InvItem) (category itemName : String) : Option InvItem :=
  inv.find? (fun it => it.category == category && it.name == itemName)

/-- `new_quantity = current_quantity + quantity_change` followed by
`if new_quantity < 0: new_quantity = 0` (adjust_inventory.py lines 122-126). -/
def newQuantityExisting (currentQuantity quantityChange : Int) : Int :=
  let newQuantity := currentQuantity + quantityChange
  if newQuantity < 0 then 0 else newQuantity

/-- The quantity `adjust_inventory` writes back to the store: the clamped sum
for an existing item, `max(0, quantity_change)` for a newly created item
(adjust_inventory.py lines 117-190). -/
def quantityWritten (inv : List InvItem) (category itemName : String)
    (quantityChange : Int) : Int :=
  match findInvItem inv category itemName with
  | some it => newQuantityExisting it.quantity quantityChange
  | none => max 0 quantityChange

/-- The `db.update_item` call on the existing item found first by the query:
only that item's quantity is rewritten. -/
def updateFirstInv : List InvItem → String → String → Int → List InvItem
  | [], _, _, _ => []
  | it :: rest, category, itemName, qc =>
    if it.category == category && it.name == itemName then
      { it with quantity := newQuantityExisting it.quantity qc } :: rest
    else
      it :: updateFirstInv rest category itemName qc

/-- The full state effect of one `adjust_inventory` request: update the first
matching item, or `put_item` a new item with quantity `max(0, quantity_change)`
(adjust_inventory.py lines 117-190). -/
def adjustInventory (inv : List InvItem) (category itemName : String)
    (quantityChange : Int) : List InvItem :=
  match findInvItem inv category itemName with
  | some _ => updateFirstInv inv category itemName quantityChange
  | none => inv ++ [⟨category, itemName, max 0 quantityChange⟩]

/-- A sequence of adjustment requests applied in order. -/
def runAdjustments (inv : List InvItem) (adjs : List (String × String × Int)) :
    List InvItem :=
  adjs.foldl (fun s a => adjustInventory s a.1 a.2.1 a.2.2) inv

theorem newQuantityExisting_eq_max (q d : Int) :
    newQuantityExisting q d = max 0 (q + d) := by
  simp only [newQuantityExisting]
  omega

theorem updateFirstInv_nonneg :
    ∀ (inv : List InvItem) (category itemName : String) (qc : Int),
      (∀ it ∈ inv, 0 ≤ it.quantity) →
      ∀ it ∈ updateFirstInv inv category itemName qc, 0 ≤ it.quantity
  | [], _, _, _, _ => by simp [updateFirstInv]
  | hd :: tl, category, itemName, qc, h => by
    simp only [updateFirstInv]
    split
    · intro it hit
      rcases List.mem_cons.mp hit with h1 | h1
      · subst h1
        simp [newQuantityExisting_eq_max]
      · exact h it (List.mem_cons_of_mem hd h1)
    · intro it hit
      rcases List.mem_cons.mp hit with h1 | h1
      · subst h1
        exact h it (List.mem_cons_self it tl)
      · exact updateFirstInv_nonneg tl category itemName qc
          (fun j hj => h j (List.mem_cons_of_mem hd hj)) it h1

theorem adjustInventory_nonneg (inv : List InvItem) (category itemName : String)
    (qc : Int) (h : ∀ it ∈ inv, 0 ≤ it.quantity) :
    ∀ it ∈ adjustInventory inv category itemName qc, 0 ≤ it.quantity := by
  simp only [adjustInventory]
  split
  · exact updateFirstInv_nonneg inv category itemName qc h
  · intro it hit
    rcases List.mem_append.mp hit with h1 | h1
    · exact h it h1
    · rcases List.mem_singleton.mp h1 with rfl
      exact le_max_left 0 qc

theorem runAdjustments_nonneg (inv : List InvItem)
    (adjs : List (String × String × Int)) (h : ∀ it ∈ inv, 0 ≤ it.quantity) :
    ∀ it ∈ runAdjustments inv adjs, 0 ≤ it.quantity := by
  induction adjs generalizing inv with
  | nil => simpa [runAdjustments] using h
  | cons a tl ih =>
    simp only [runAdjustments, List.foldl_cons]
    exact ih (adjustInventory inv a.1 a.2.1 a.2.2)
      (adjustInventory_nonneg inv a.1 a.2.1 a.2.2 h)

/-- Claim C1: inventory adjustment never drives a stored quantity below zero.
For an existing item with quantity `q` the quantity written is
`max 0 (q + delta)`; when no `(category, name)` item exists the newly created
item's quantity is `max 0 delta`; and every inventory quantity stays
nonnegative after each adjustment of any sequence of adjustments. -/
theorem adjust_inventory_clamps_nonneg (inv : List InvItem)
    (category itemName : String) (delta : Int)
    (hok : ∀ it ∈ inv, 0 ≤ it.quantity) :
    (∀ it0, findInvItem inv category itemName = some it0 →
      quantityWritten inv category itemName delta = max 0 (it0.quantity + delta)) ∧
    (findInvItem inv category itemName = none →
      quantityWritten inv category itemName delta = max 0 delta) ∧
    (∀ it ∈ adjustInventory inv category itemName delta, 0 ≤ it.quantity) ∧
    (∀ adjs, ∀ it ∈ runAdjustments inv adjs, 0 ≤ it.quantity) := by
  refine ⟨?_, ?_, adjustInventory_nonneg inv category itemName delta hok,
    fun adjs => runAdjustments_nonneg inv adjs hok⟩
  · intro it0 hfind
    simp [quantityWritten, hfind, newQuantityExisting_eq_max]
  · intro hfind
    simp [quantityWritten, hfind]

/-- Concrete instance of claim C1: adjusting a fresh `(canned, Canned Beans)`
pair by `-12` creates an item clamped at quantity `0`, and the store stays
nonnegative. -/
theorem adjust_inventory_clamps_nonneg_witness :
    (∀ it ∈ ([⟨"canned", "Corn", 5⟩] : List InvItem), 0 ≤ it.quantity) ∧
    (findInvItem [⟨"canned", "Corn", 5⟩] "canned" "Canned Beans" = none →
      quantityWritten [⟨"canned", "Corn", 5⟩] "canned" "Canned Beans" (-12) =
        max 0 (-12)) ∧
    (∀ it ∈ adjustInventory [⟨"canned", "Corn", 5⟩] "canned" "Canned Beans" (-12),
      0 ≤ it.quantity) := by
  refine ⟨by decide, ?_, ?_⟩
  · exact (adjust_inventory_clamps_nonneg [⟨"canned", "Corn", 5⟩] "canned"
      "Canned Beans" (-12) (by decide)).2.1
  · exact (adjust_inventory_clamps_nonneg [⟨"canned", "Corn", 5⟩] "canned"
      "Canned Beans" (-12) (by decide)).2.2.1

/-! ### Role hierarchy (`lib/auth.py`) -/

/-- `ROLE_HIERARCHY` from auth.py lines 12-18. -/
def ROLE_HIERARCHY : List (String × Nat) :=
  [("Admin", 5), ("DonorCoordinator", 4), ("DistributionManager", 3),
   ("Volunteer", 2), ("ReadOnly", 1)]

/-- Python `ROLE_HIERARCHY.get(role, 0)`. -/
def hierarchyGet (role : String) : Nat :=
  ((ROLE_HIERARCHY.find? (fun p => p.1 == role)).map (·.2)).getD 0

/-- `AuthHelper.has_role` from auth.py lines 138-152: the user's level must be
at least the required level, with unknown roles mapped to level 0. -/
def has_role (user_role required_role : String) : Bool :=
  decide (hierarchyGet required_role ≤ hierarchyGet user_role)

theorem hierarchyGet_unknown (role : String)
    (h : role ∉ ["Admin", "DonorCoordinator", "DistributionManager",
      "Volunteer", "ReadOnly"]) : hierarchyGet role = 0 := by
  simp only [List.mem_cons, not_or] at h
  obtain ⟨h1, h2, h3, h4, h5, -⟩ := h
  have e1 : ("Admin" == role) = false := by simpa using Ne.symm h1
  have e2 : ("DonorCoordinator" == role) = false := by simpa using Ne.symm h2
  have e3 : ("DistributionManager" == role) = false := by simpa using Ne.symm h3
  have e4 : ("Volunteer" == role) = false := by simpa using Ne.symm h4
  have e5 : ("ReadOnly" == role) = false := by simpa using Ne.symm h5
  simp [hierarchyGet, ROLE_HIERARCHY, List.find?, e1, e2, e3, e4, e5]

/-- Claim C9: `has_role` is exactly the comparison of hierarchy levels, where
the five known roles map to 5,4,3,2,1 and every other string to 0; hence a
required role outside the five known roles admits every user. -/
theorem has_role_level_comparison (user_role required_role : String) :
    (has_role user_role required_role = true ↔
      hierarchyGet required_role ≤ hierarchyGet user_role) ∧
    (hierarchyGet "Admin" = 5 ∧ hierarchyGet "DonorCoordinator" = 4 ∧
      hierarchyGet "DistributionManager" = 3 ∧ hierarchyGet "Volunteer" = 2 ∧
      hierarchyGet "ReadOnly" = 1) ∧
    (required_role ∉ ["Admin", "DonorCoordinator", "DistributionManager",
        "Volunteer", "ReadOnly"] →
      has_role user_role required_role = true) := by
  refine ⟨by simp [has_role], by decide, ?_⟩
  intro h
  simp [has_role, hierarchyGet_unknown required_role h]

/-- Concrete instance of claim C9: the misspelled required role
`DonorCordinator` is unknown, so even a `ReadOnly` user passes the gate. -/
theorem has_role_level_comparison_witness :
    ("DonorCordinator" ∉ ["Admin", "DonorCoordinator", "DistributionManager",
      "Volunteer", "ReadOnly"]) ∧
    has_role "ReadOnly" "DonorCordinator" = true :=
  ⟨by decide, (has_role_level_comparison "ReadOnly" "DonorCordinator").2.2 (by decide)⟩

/-! ### String validation (`lib/validation.py`) -/

/-- Python `str.strip()`: drop whitespace from both ends. -/
def pyStrip (s : String) : String :=
  String.mk (((s.data.dropWhile Char.isWhitespace).reverse.dropWhile
    Char.isWhitespace).reverse)

/-- Python truthiness of an optional integer parameter: `None` and `0` are
falsy, every other number truthy. -/
def intTruthy : Option Nat → Bool
  | none => false
  | some n => n != 0

/-- `Validator.validate_string` from validation.py lines 86-134 (without the
optional regex pattern argument): the length bounds are checked against the
untrimmed value (`len(value)`), guarded by Python truthiness of the bound
(`if min_length and ...`), and the stripped value is returned. -/
def validate_string (value field_name : String)
    (min_length max_length : Option Nat) : Except SGErr String :=
  if intTruthy min_length = true ∧ value.length < min_length.getD 0 then
    .error (.validationError (field_name ++ " must be at least " ++
      toString (min_length.getD 0) ++ " characters"))
  else if intTruthy max_length = true ∧ max_length.getD 0 < value.length then
    .error (.validationError (field_name ++ " must be at most " ++
      toString (max_length.getD 0) ++ " characters"))
  else
    .ok (pyStrip value)

theorem dropWhile_replicate_true {α : Type} (p : α → Bool) (a : α) (n : Nat)
    (h : p a = true) : List.dropWhile p (List.replicate n a) = [] := by
  induction n with
  | zero => simp
  | succ m ih => simp [List.replicate_succ, List.dropWhile_cons, h, ih]

theorem pyStrip_spaces (m : Nat) :
    pyStrip (String.mk (List.replicate m ' ')) = "" := by
  have h : List.dropWhile Char.isWhitespace (List.replicate m ' ') = [] :=
    dropWhile_replicate_true _ _ _ (by decide)
  show String.mk ((((List.replicate m ' ').dropWhile
    Char.isWhitespace).reverse.dropWhile Char.isWhitespace).reverse) = ""
  rw [h]
  rfl

/-- Claim C10: `validate_string` checks length bounds on the untrimmed input
but returns the stripped value, so a passing return value can be shorter than
`min_length` (a string of `min_length` spaces passes and returns `""`), and a
bound of `0` is treated as no bound at all. -/
theorem validate_string_untrimmed_bounds (value field_name : String)
    (min_length max_length : Option Nat) :
    (∀ r, validate_string value field_name min_length max_length = .ok r →
      r = pyStrip value) ∧
    (validate_string value field_name (some 0) (some 0) = .ok (pyStrip value)) ∧
    (∀ m : Nat, validate_string (String.mk (List.replicate m ' '))
      field_name (some m) none = .ok "") := by
  refine ⟨?_, ?_, ?_⟩
  · intro r hr
    simp only [validate_string] at hr
    split at hr
    · exact absurd hr (by simp)
    · split at hr
      · exact absurd hr (by simp)
      · exact (Except.ok.inj hr).symm
  · simp [validate_string, intTruthy]
  · intro m
    have hlen : (String.mk (List.replicate m ' ')).length = m := by
      show (List.replicate m ' ').length = m
      simp
    simp [validate_string, intTruthy, hlen, pyStrip_spaces]

/-- Concrete instance of claim C10: a three-space input passes
`min_length = 3` on its untrimmed length and returns the empty string. -/
theorem validate_string_untrimmed_bounds_witness :
    validate_string (String.mk (List.replicate 3 ' ')) "name" (some 3) none =
      .ok "" :=
  (validate_string_untrimmed_bounds "unused" "name" none none).2.2 3

/-! ### Pagination bounds on list endpoints -/

/-- The pagination validation stage of `list_donations.lambda_handler`
(list_donations.py lines 82-89): out-of-range values raise `ValidationError`
before any store operation runs; the store query only happens on the `.ok`
path. `list_inventory` and `list_distributions` behave the same way. -/
def listDonationsCheckPagination (page page_size : Int) :
    Except SGErr (Int × Int) :=
  if page < 1 then .error (.validationError "page must be >= 1")
  else if page_size < 1 ∨ page_size > 100 then
    .error (.validationError "page_size must be between 1 and 100")
  else .ok (page, page_size)

/-- The pagination stage of `list_donors.lambda_handler` (list_donors.py
lines 77-86): out-of-range values are silently reset (`page` to 1,
`page_size` to the default 50) and the handler proceeds to the store query.
`list_recipients` behaves the same way. -/
def listDonorsNormalizePagination (page page_size : Int) : Int × Int :=
  (if page < 1 then 1 else page,
   if page_size < 1 ∨ page_size > 100 then 50 else page_size)

/-- Claim C4 counterexample: not every list endpoint rejects an out-of-range
`page_size`.  At `page_size = 101` the donors endpoint raises nothing — it
resets the value to 50 and proceeds to the store query — while the donations
endpoint rejects the same request with the `ValidationError` the claim
describes. -/
theorem list_donors_accepts_oversized_page_size :
    listDonorsNormalizePagination 1 101 = (1, 50) ∧
    listDonationsCheckPagination 1 101 =
      .error (.validationError "page_size must be between 1 and 100") :=
  ⟨rfl, rfl⟩

/-- Claim C4 (amended): `list_donations` (and `list_inventory`,
`list_distributions`) rejects any `page_size` outside `[1, 100]` with a
`ValidationError` (HTTP 400) citing the bound, before any store operation;
`list_donors` (and `list_recipients`) instead silently resets an out-of-range
`page_size` to the default 50 and proceeds with the store query. -/
theorem page_size_bound_amended (page page_size : Int) (hpage : 1 ≤ page)
    (hps : page_size < 1 ∨ page_size > 100) :
    listDonationsCheckPagination page page_size =
      .error (.validationError "page_size must be between 1 and 100") ∧
    (listDonationsCheckPagination page page_size).toOption = none ∧
    SGErr.statusCode (.validationError "page_size must be between 1 and 100") = 400 ∧
    listDonorsNormalizePagination page page_size = (page, 50) := by
  have h1 : ¬page < 1 := by omega
  have h2 : listDonationsCheckPagination page page_size =
      .error (.validationError "page_size must be between 1 and 100") := by
    simp [listDonationsCheckPagination, h1, hps]
  refine ⟨h2, ?_, rfl, ?_⟩
  · rw [h2]
    rfl
  · simp [listDonorsNormalizePagination, h1, hps]

/-- Concrete instance of amended claim C4 at `page_size = 101`. -/
theorem page_size_bound_amended_witness :
    (1 : Int) ≤ 1 ∧ ((101 : Int) < 1 ∨ (101 : Int) > 100) ∧
    listDonationsCheckPagination 1 101 =
      .error (.validationError "page_size must be between 1 and 100") ∧
    listDonorsNormalizePagination 1 101 = (1, 50) :=
  ⟨by decide, by decide,
    (page_size_bound_amended 1 101 (by decide) (by decide)).1,
    (page_size_bound_amended 1 101 (by decide) (by decide)).2.2.2⟩

/-! ### Date-range key conditions (`functions/donations/list_donations.py`) -/

/-- A sort-key range condition, as built by the boto3 `Key(...)` helpers:
`between`, `gte` and `lte`. -/
inductive RangeCond where
  | between (lo hi : String)
  | gte (lo : String)
  | lte (hi : String)
deriving DecidableEq, Repr

/-- The sort-key condition `list_donations.lambda_handler` appends to the key
condition (list_donations.py lines 126-131 and 151-156): `between` when both
bounds are supplied, `gte` on only a start date, `lte` on only an end date,
and no range condition otherwise.  An absent or empty query parameter is
modelled as `none` (both are falsy in the Python `if start_date and
end_date` chain). -/
def dateRangeCond (start_date end_date : Option String) : Option RangeCond :=
  match start_date, end_date with
  | some s, some e => some (.between s e)
  | some s, none => some (.gte s)
  | none, some e => some (.lte e)
  | none, none => none

/-- DynamoDB key-condition semantics on a string sort key: `between` is
inclusive at both ends, `gte`/`lte` are inclusive one-sided bounds, and no
condition matches everything. -/
def matchesRange : Option RangeCond → String → Bool
  | none, _ => true
  | some (.between lo hi), d => decide (lo ≤ d) && decide (d ≤ hi)
  | some (.gte lo), d => decide (lo ≤ d)
  | some (.lte hi), d => decide (d ≤ hi)

/-- The items a query with the given sort-key range condition returns from a
partition, keyed here as pairs of (sort-key date, item attributes). -/
def queryBySortKey (rows : List (String × List (String × String)))
    (cond : Option RangeCond) : List (String × List (String × String)) :=
  rows.filter (fun r => matchesRange cond r.1)

/-- Claim C5: the date-range filter of list-donations is inclusive at both
ends and correctly open-ended — with both bounds the query selects exactly
the rows with `start_date ≤ date ≤ end_date`, with only a start date exactly
those with `date ≥ start_date`, and with only an end date exactly those with
`date ≤ end_date`. -/
theorem date_range_inclusive (rows : List (String × List (String × String)))
    (s e : String) (row : String × List (String × String)) :
    (row ∈ queryBySortKey rows (dateRangeCond (some s) (some e)) ↔
      row ∈ rows ∧ (s ≤ row.1 ∧ row.1 ≤ e)) ∧
    (row ∈ queryBySortKey rows (dateRangeCond (some s) none) ↔
      row ∈ rows ∧ s ≤ row.1) ∧
    (row ∈ queryBySortKey rows (dateRangeCond none (some e)) ↔
      row ∈ rows ∧ row.1 ≤ e) := by
  refine ⟨?_, ?_, ?_⟩ <;>
    simp [queryBySortKey, dateRangeCond, matchesRange, List.mem_filter,
      and_assoc]

/-! ### Store adapter (`lib/dynamodb.py`) -/

/-- A DynamoDB attribute value; the adapter logic only inspects strings and
numbers. -/
inductive AVal where
  | s (v : String)
  | n (v : Int)
deriving DecidableEq, Repr

/-- An item, modelled as a Python dict: an association list with unique keys
in insertion order. -/
abbrev DBItem := List (String × AVal)

/-- Python `item.get(k)`: the value at the first occurrence of the key. -/
def getAttr (item : DBItem) (k : String) : Option AVal :=
  (item.find? (fun p => p.1 == k)).map (·.2)

/-- Python `item[k] = v` on a dict: replace the value of an existing key in
place (keeping its position), or append the new key at the end. -/
def setAttr : DBItem → String → AVal → DBItem
  | [], k, v => [(k, v)]
  | p :: rest, k, v =>
    if p.1 = k then (k, v) :: rest else p :: setAttr rest k v

/-- The timestamping in `DynamoDBHelper.put_item` (dynamodb.py lines 45-52):
`item["created_at"] = item.get("created_at", now)` and
`item["updated_at"] = now`. -/
def stampItem (now : String) (item : DBItem) : DBItem :=
  setAttr (setAttr item "created_at" ((getAttr item "created_at").getD (.s now)))
    "updated_at" (.s now)

/-- The composite key of an item: its `PK` and `SK` attributes. -/
def itemKey (item : DBItem) : Option AVal × Option AVal :=
  (getAttr item "PK", getAttr item "SK")

/-- The effect of `table.put_item(Item=item)`: overwrite the item with the
same composite key, or insert the item if its key is absent. -/
def tablePut : List DBItem → DBItem → List DBItem
  | [], item => [item]
  | row :: rest, item =>
    if itemKey row = itemKey item then item :: rest else row :: tablePut rest item

/-- `DynamoDBHelper.put_item` (dynamodb.py lines 32-57): stamp the item, write
it to the table, and return the stamped item itself. -/
def put_item (table : List DBItem) (now : String) (item : DBItem) :
    List DBItem × DBItem :=
  (tablePut table (stampItem now item), stampItem now item)

theorem getAttr_cons (p : String × AVal) (tl : DBItem) (k : String) :
    getAttr (p :: tl) k = if p.1 = k then some p.2 else getAttr tl k := by
  by_cases h : p.1 = k
  · simp [getAttr, List.find?, h]
  · have hb : (p.1 == k) = false := by simpa using h
    simp [getAttr, List.find?, hb, h]

theorem getAttr_setAttr_self : ∀ (item : DBItem) (k : String) (v : AVal),
    getAttr (setAttr item k v) k = some v
  | [], k, v => by simp [setAttr, getAttr_cons]
  | p :: rest, k, v => by
    by_cases h : p.1 = k
    · simp [setAttr, h, getAttr_cons]
    · simp [setAttr, h, getAttr_cons, getAttr_setAttr_self rest k v]

theorem getAttr_setAttr_other : ∀ (item : DBItem) (k k' : String) (v : AVal),
    k' ≠ k → getAttr (setAttr item k v) k' = getAttr item k'
  | [], k, k', v, h => by
    simp [setAttr, getAttr_cons, Ne.symm h, getAttr]
  | p :: rest, k, k', v, h => by
    by_cases hp : p.1 = k
    · have hp' : p.1 ≠ k' := by
        rw [hp]
        exact Ne.symm h
      simp [setAttr, hp, getAttr_cons, Ne.symm h, hp']
    · have hstep : setAttr (p :: rest) k v = p :: setAttr rest k v := by
        simp [setAttr, hp]
      by_cases hp' : p.1 = k'
      · rw [hstep]
        simp [getAttr_cons, hp']
      · rw [hstep]
        simp [getAttr_cons, hp', getAttr_setAttr_other rest k k' v h]

theorem tablePut_mem (table : List DBItem) (item : DBItem) :
    item ∈ tablePut table item := by
  induction table with
  | nil => simp [tablePut]
  | cons row rest ih =>
    simp only [tablePut]
    split
    · exact List.mem_cons_self item rest
    · exact List.mem_cons_of_mem row ih

/-- Claim C6: `put_item` stamps `created_at` only once and `updated_at`
always and leaves everything else alone — the stored/returned item keeps the
input's `created_at` when present and gets the current timestamp otherwise,
gets `updated_at := now` unconditionally, agrees with the input on every
other attribute, and the returned item is the item written to the table. -/
theorem put_item_stamps_and_frames (table : List DBItem) (now : String)
    (item : DBItem) :
    getAttr (put_item table now item).2 "updated_at" = some (.s now) ∧
    getAttr (put_item table now item).2 "created_at" =
      some ((getAttr item "created_at").getD (.s now)) ∧
    (∀ k, k ≠ "created_at" → k ≠ "updated_at" →
      getAttr (put_item table now item).2 k = getAttr item k) ∧
    (put_item table now item).2 ∈ (put_item table now item).1 := by
  refine ⟨?_, ?_, ?_, tablePut_mem table (stampItem now item)⟩
  · exact getAttr_setAttr_self _ "updated_at" (.s now)
  · rw [show (put_item table now item).2 = stampItem now item from rfl,
      stampItem, getAttr_setAttr_other _ _ _ _ (by decide)]
    exact getAttr_setAttr_self _ "created_at" _
  · intro k hk1 hk2
    rw [show (put_item table now item).2 = stampItem now item from rfl,
      stampItem, getAttr_setAttr_other _ _ _ _ hk2,
      getAttr_setAttr_other _ _ _ _ hk1]

/-- Concrete instance of claim C6: an item that already carries `created_at`
keeps it, gets a fresh `updated_at`, and its payload attribute survives. -/
theorem put_item_stamps_and_frames_witness :
    ("name" : String) ≠ "created_at" ∧ ("name" : String) ≠ "updated_at" ∧
    getAttr (put_item [] "T1"
      [("PK", .s "DONOR#1"), ("created_at", .s "T0"), ("name", .s "Ana")]).2
      "name" =
      getAttr [("PK", .s "DONOR#1"), ("created_at", .s "T0"), ("name", .s "Ana")]
        "name" ∧
    (put_item [] "T1"
      [("PK", .s "DONOR#1"), ("created_at", .s "T0"), ("name", .s "Ana")]).2 ∈
      (put_item [] "T1"
        [("PK", .s "DONOR#1"), ("created_at", .s "T0"), ("name", .s "Ana")]).1 :=
  ⟨by decide, by decide,
    (put_item_stamps_and_frames []
      "T1" [("PK", .s "DONOR#1"), ("created_at", .s "T0"), ("name", .s "Ana")]).2.2.1
      "name" (by decide) (by decide),
    (put_item_stamps_and_frames []
      "T1" [("PK", .s "DONOR#1"), ("created_at", .s "T0"), ("name", .s "Ana")]).2.2.2⟩

/-- A backend client error, carrying the backend error code, as caught in
`except ClientError` branches of the adapter. -/
structure ClientError where
  code : String
deriving DecidableEq, Repr

/-- The effect of `table.delete_item(Key=...)` on the stored rows: the item
with the given composite key is removed; nothing happens if it is absent. -/
def removeKeyRow (table : List DBItem) (pk sk : String) : List DBItem :=
  table.filter
    (fun row => !(getAttr row "PK" == some (.s pk) && getAttr row "SK" == some (.s sk)))

/-- `DynamoDBHelper.delete_item` (dynamodb.py lines 142-159): forward the
delete to the backend and translate a backend `ClientError` into a
`DatabaseError`; no existence check is made, and nothing is raised when the
key is absent. -/
def delete_item (backend : Except ClientError Unit) (table : List DBItem)
    (pk sk : String) : Except SGErr (List DBItem) :=
  match backend with
  | .error e => .error (.databaseError ("Failed to delete item: " ++ e.code))
  | .ok _ => .ok (removeKeyRow table pk sk)

/-- Claim C7: `delete_item` is idempotent and raises nothing on an absent
key — deleting a key no row carries returns the table unchanged with no
error, deleting twice equals deleting once, and the only error the operation
can surface is the `DatabaseError` translated from a backend `ClientError`. -/
theorem delete_item_idempotent_absent_ok (table : List DBItem) (pk sk : String) :
    ((∀ row ∈ table,
        ¬(getAttr row "PK" = some (.s pk) ∧ getAttr row "SK" = some (.s sk))) →
      delete_item (.ok ()) table pk sk = .ok table) ∧
    removeKeyRow (removeKeyRow table pk sk) pk sk = removeKeyRow table pk sk ∧
    (∀ e : ClientError, delete_item (.error e) table pk sk =
      .error (.databaseError ("Failed to delete item: " ++ e.code))) := by
  refine ⟨?_, ?_, fun _ => rfl⟩
  · intro habs
    simp only [delete_item, removeKeyRow, Except.ok.injEq]
    apply List.filter_eq_self.mpr
    intro row hrow
    have := habs row hrow
    simp only [Bool.not_eq_true', Bool.and_eq_false_iff]
    rcases Decidable.not_and_iff_or_not.mp this with h1 | h1
    · exact Or.inl (by simpa using h1)
    · exact Or.inr (by simpa using h1)
  · simp only [removeKeyRow, List.filter_filter]
    exact List.filter_congr (fun row _ => by rw [Bool.and_self])

/-- Concrete instance of claim C7: deleting an absent key from a one-row
table succeeds and leaves the table unchanged. -/
theorem delete_item_idempotent_absent_ok_witness :
    (∀ row ∈ ([[("PK", AVal.s "DONOR#1"), ("SK", AVal.s "PROFILE")]] : List DBItem),
      ¬(getAttr row "PK" = some (.s "DONOR#2") ∧
        getAttr row "SK" = some (.s "PROFILE"))) ∧
    delete_item (.ok ()) [[("PK", AVal.s "DONOR#1"), ("SK", AVal.s "PROFILE")]]
      "DONOR#2" "PROFILE" =
      .ok [[("PK", AVal.s "DONOR#1"), ("SK", AVal.s "PROFILE")]] :=
  ⟨by decide,
    (delete_item_idempotent_absent_ok
      [[("PK", AVal.s "DONOR#1"), ("SK", AVal.s "PROFILE")]]
      "DONOR#2" "PROFILE").1 (by decide)⟩

/-! ### Distribution completion (`functions/distributions/complete_distribution.py`) -/

/-- A donation line item as read by the completion flow (`item_name`,
`quantity`). -/
structure DonItem where
  item_name : String
  quantity : Int
deriving DecidableEq, Repr

/-- The `DONATION#<id>` / `METADATA` record the completion flow updates. -/
structure DonationRec where
  donation_id : String
  items : List DonItem
deriving DecidableEq, Repr

/-- One entry of a distribution's item list: a donation reference, an item
index into that donation, and a quantity to distribute. -/
structure DistLine where
  donation_id : String
  item_index : Nat
  quantity : Int
deriving DecidableEq, Repr

/-- The `DISTRIBUTION#<id>` record; the `METADATA` row and its
`RECIPIENT#<id>` mirror row share the fields modelled here, so one record
stands for both. -/
structure DistributionRec where
  distribution_id : String
  recipient_id : String
  status : String
  items : List DistLine
deriving DecidableEq, Repr

/-- The store state the completion flow touches: donation records and
distribution records. -/
structure CompletionState where
  donations : List DonationRec
  distributions : List DistributionRec
deriving DecidableEq, Repr

/-- The parsed request body: optional `actual_items` and
`completion_notes`. -/
structure CompleteInput where
  actual_items : Option (List DistLine)
  completion_notes : Option String
deriving DecidableEq, Repr

/-- `db.get_item(DONATION#id, METADATA)` as used by `update_inventory`. -/
def findDonation (ds : List DonationRec) (id : String) : Option DonationRec :=
  ds.find? (fun d => d.donation_id == id)

/-- `db.get_item(DISTRIBUTION#id, METADATA)`. -/
def findDistribution (ds : List DistributionRec) (id : String) :
    Option DistributionRec :=
  ds.find? (fun d => d.distribution_id == id)

/-- The write-back of a donation's rewritten item list. -/
def updateDonation (ds : List DonationRec) (id : String)
    (newItems : List DonItem) : List DonationRec :=
  ds.map (fun d => if d.donation_id == id then { d with items := newItems } else d)

/-- One iteration of `update_inventory` (complete_distribution.py lines
89-155): a missing donation or an out-of-range `item_index` is skipped, and
otherwise the referenced item's quantity is clamped down by
`max(0, current_quantity - quantity)`. -/
def applyDistLine (ds : List DonationRec) (line : DistLine) : List DonationRec :=
  match findDonation ds line.donation_id with
  | none => ds
  | some don =>
    match don.items.get? line.item_index with
    | none => ds
    | some it =>
      updateDonation ds line.donation_id
        (don.items.set line.item_index
          { it with quantity := max 0 (it.quantity - line.quantity) })

/-- `update_inventory` (complete_distribution.py lines 73-161): decrement the
referenced donation item quantities one line at a time. -/
def update_inventory (ds : List DonationRec) (lines : List DistLine) :
    List DonationRec :=
  lines.foldl applyDistLine ds

/-- `complete_distribution.lambda_handler` after input validation
(complete_distribution.py lines 204-246): fetch the distribution (404 when
absent), reject an already-completed distribution with a `ValidationError`,
otherwise decrement inventory from `actual_items or distribution["items"]`
(an empty `actual_items` list is falsy and falls back to the stored items)
and flip the status of the metadata row and its recipient mirror row to
`completed`. -/
def complete_distribution (st : CompletionState) (distribution_id : String)
    (input : CompleteInput) : Except SGErr CompletionState :=
  match findDistribution st.distributions distribution_id with
  | none => .error (.notFoundError ("Item with ID 'DISTRIBUTION#" ++
      distribution_id ++ "#METADATA' not found"))
  | some dist =>
    if dist.status == "completed" then
      .error (.validationError "Distribution is already completed")
    else
      let itemsToDistribute :=
        match input.actual_items with
        | some l => if l.isEmpty then dist.items else l
        | none => dist.items
      let donations1 := update_inventory st.donations itemsToDistribute
      let distributions1 := st.distributions.map (fun d =>
        if d.distribution_id == distribution_id then
          { d with status := "completed" } else d)
      .ok { donations := donations1, distributions := distributions1 }

/-- Claim C3: completing an already-completed distribution is rejected with a
`ValidationError` (HTTP 400): the handler returns that error and no new
state, so no inventory decrement and no status write happens. -/
theorem complete_distribution_rejects_completed (st : CompletionState)
    (distribution_id : String) (input : CompleteInput) (dist : DistributionRec)
    (hfind : findDistribution st.distributions distribution_id = some dist)
    (hstatus : dist.status = "completed") :
    complete_distribution st distribution_id input =
      .error (.validationError "Distribution is already completed") ∧
    SGErr.statusCode (.validationError "Distribution is already completed") = 400 ∧
    (∀ st', complete_distribution st distribution_id input ≠ .ok st') := by
  have hmain : complete_distribution st distribution_id input =
      .error (.validationError "Distribution is already completed") := by
    simp [complete_distribution, hfind, hstatus]
  refine ⟨hmain, rfl, fun st' => ?_⟩
  rw [hmain]
  exact fun hc => Except.noConfusion hc

/-- Concrete instance of claim C3: re-completing a completed distribution in
a one-distribution store is rejected. -/
theorem complete_distribution_rejects_completed_witness :
    findDistribution [⟨"dist-1", "rec-1", "completed", []⟩] "dist-1" =
      some ⟨"dist-1", "rec-1", "completed", []⟩ ∧
    complete_distribution ⟨[], [⟨"dist-1", "rec-1", "completed", []⟩]⟩ "dist-1"
      ⟨none, none⟩ =
      .error (.validationError "Distribution is already completed") :=
  ⟨by decide,
    (complete_distribution_rejects_completed
      ⟨[], [⟨"dist-1", "rec-1", "completed", []⟩]⟩ "dist-1" ⟨none, none⟩
      ⟨"dist-1", "rec-1", "completed", []⟩ (by decide) rfl).1⟩

/-! ### Donation creation (`functions/donations/create_donation.py`) -/

/-- One item of the `items` list in a create-donation request, after
validation. -/
structure DonationInputItem where
  name : String
  category : String
  quantity : Int
  unit : String
  expiration_date : Option String
deriving DecidableEq, Repr

/-- A stored `ITEM#<idx zero-padded to 4>` sibling record
(create_donation.py lines 145-165). -/
structure DonationItemRecord where
  SK : String
  donation_id : String
  item_index : Nat
  name : String
  category : String
  quantity : Int
  unit : String
  expiration_date : Option String
deriving DecidableEq, Repr

/-- The `METADATA` record of a donation (create_donation.py lines 121-137);
only the fields the claim is about are modelled. -/
structure DonationMetadata where
  donation_id : String
  donor_id : String
  status : String
deriving DecidableEq, Repr

/-- Python `f"{idx:04d}"`: the decimal representation zero-padded on the
left to at least four digits. -/
def pad4 (n : Nat) : String :=
  String.mk (List.replicate (4 - (toString n).length) '0') ++ toString n

/-- The `ITEM#...` record written for the item at position `idx`
(create_donation.py lines 145-165). -/
def itemRecordFor (donation_id : String) (idx : Nat) (it : DonationInputItem) :
    DonationItemRecord :=
  { SK := "ITEM#" ++ pad4 idx, donation_id := donation_id, item_index := idx,
    name := it.name, category := it.category, quantity := it.quantity,
    unit := it.unit, expiration_date := it.expiration_date }

/-- `create_donation.lambda_handler` after field validation
(create_donation.py lines 114-172): an empty items list is rejected by
`validate_donation_items`; otherwise one `METADATA` record with status
`pending` and one `ITEM#<idx:04d>` record per input item are written, in
input order. -/
def create_donation (donation_id donor_id : String)
    (items : List DonationInputItem) :
    Except SGErr (DonationMetadata × List DonationItemRecord) :=
  if items.isEmpty then .error (.validationError "items list cannot be empty")
  else
    .ok ({ donation_id := donation_id, donor_id := donor_id, status := "pending" },
      items.enum.map (fun p => itemRecordFor donation_id p.1 p.2))

theorem enum_map_getElem? {α β : Type} (l : List α) (f : Nat × α → β) (idx : Nat) :
    (l.enum.map f)[idx]? = (l[idx]?).map (fun a => f (idx, a)) := by
  rw [List.getElem?_map, List.getElem?_enum]
  cases l[idx]? <;> rfl

/-- Claim C8: a valid create-donation request with a non-empty items list
produces a `METADATA` record with status `pending`, and for each input item
at position `idx` exactly one sibling record with sort key
`ITEM#<idx zero-padded to 4>` and `item_index = idx`, indices assigned
monotonically in input order. -/
theorem create_donation_records (donation_id donor_id : String)
    (items : List DonationInputItem) (h : items ≠ []) :
    ∃ md recs,
      create_donation donation_id donor_id items = .ok (md, recs) ∧
      md.status = "pending" ∧
      recs.length = items.length ∧
      (∀ idx r, recs[idx]? = some r →
        r.SK = "ITEM#" ++ pad4 idx ∧ r.item_index = idx) ∧
      (∀ idx, idx < items.length →
        (recs.filter (fun r => r.item_index == idx)).length = 1) := by
  have hne : ¬items.isEmpty := by simpa [List.isEmpty_iff] using h
  refine ⟨⟨donation_id, donor_id, "pending"⟩,
    items.enum.map (fun p => itemRecordFor donation_id p.1 p.2),
    by simp [create_donation, hne], rfl, by simp, ?_, ?_⟩
  · intro idx r hr
    rw [enum_map_getElem?] at hr
    cases hg : items[idx]? with
    | none =>
      rw [hg] at hr
      exact absurd hr (by simp)
    | some a =>
      rw [hg] at hr
      have ha : itemRecordFor donation_id idx a = r := by simpa using hr
      subst ha
      exact ⟨rfl, rfl⟩
  · intro idx hidx
    rw [← List.countP_eq_length_filter, List.countP_map]
    have hfst : List.countP
        ((fun r : DonationItemRecord => r.item_index == idx) ∘
          (fun p : Nat × DonationInputItem => itemRecordFor donation_id p.1 p.2))
        items.enum = List.count idx (items.enum.map Prod.fst) := by
      show List.countP _ items.enum =
        List.countP (fun x => x == idx) (items.enum.map Prod.fst)
      rw [List.countP_map]
      rfl
    rw [hfst, List.enum_map_fst]
    exact List.count_eq_one_of_mem (List.nodup_range _) (List.mem_range.mpr hidx)

/-- Concrete instance of claim C8: the canned-beans example request yields a
pending metadata record and a single item record with index 0. -/
theorem create_donation_records_witness :
    ([⟨"Canned Beans", "canned", 10, "cans", none⟩] :
      List DonationInputItem) ≠ [] ∧
    ∃ md recs,
      create_donation "don-1" "donor-1"
        [⟨"Canned Beans", "canned", 10, "cans", none⟩] = .ok (md, recs) ∧
      md.status = "pending" ∧
      recs.length = 1 ∧
      (∀ idx r, recs[idx]? = some r →
        r.SK = "ITEM#" ++ pad4 idx ∧ r.item_index = idx) := by
  refine ⟨by decide, ?_⟩
  obtain ⟨md, recs, h1, h2, h3, h4, -⟩ :=
    create_donation_records "don-1" "donor-1"
      [⟨"Canned Beans", "canned", 10, "cans", none⟩] (by decide)
  exact ⟨md, recs, h1, h2, by simpa using h3, h4⟩

/-! ### Pagination token codec (`functions/donations/list_donations.py`)

`encode_pagination_token` is `base64.b64encode(json.dumps(last_key).encode())`
and `decode_pagination_token` is the inverse with every exception mapped to
`None` (list_donations.py lines 28-56).  The Python standard-library pieces
are modelled here: standard base64 with `=` padding over byte lists, and the
`json` codec restricted to the shape of a DynamoDB `LastEvaluatedKey` — a
flat dictionary of strings whose characters are printable ASCII without `"`
or a backslash, so `json.dumps` emits them unescaped.  Byte strings are lists
of `Nat` below 256 and text is `List Char`. -/

/-- The 64-character standard base64 alphabet. -/
def B64_ALPHABET : List Char :=
  "ABCDEFGHIJKLMNOPQRSTUVWXYZabcdefghijklmnopqrstuvwxyz0123456789+/".data

/-- The alphabet character for a sextet value. -/
def c64 (n : Nat) : Char := B64_ALPHABET.getD n '?'

/-- The sextet value of an alphabet character, `none` for a character outside
the alphabet. -/
def d64 (ch : Char) : Option Nat := B64_ALPHABET.findIdx? (fun c => c == ch)

theorem d64_c64 : ∀ n < 64, d64 (c64 n) = some n := by decide

theorem c64_ne_pad : ∀ n < 64, c64 n ≠ '=' := by decide

/-- `base64.b64encode` on a byte list: three bytes become four alphabet
characters; a final group of one or two bytes is padded with `=`. -/
def encB64 : List Nat → List Char
  | [] => []
  | [a] => [c64 (a / 4), c64 (a % 4 * 16), '=', '=']
  | [a, b] => [c64 (a / 4), c64 (a % 4 * 16 + b / 16), c64 (b % 16 * 4), '=']
  | a :: b :: c :: rest =>
    c64 (a / 4) :: c64 (a % 4 * 16 + b / 16) :: c64 (b % 16 * 4 + c / 64) ::
      c64 (c % 64) :: encB64 rest

/-- `base64.b64decode` on a character list: groups of four characters with
optional trailing padding; any other shape or a character outside the
alphabet fails with `none`. -/
def decB64 : List Char → Option (List Nat)
  | [] => some []
  | c1 :: c2 :: c3 :: c4 :: rest =>
    match d64 c1, d64 c2 with
    | some s1, some s2 =>
      if c3 = '=' then
        if c4 = '=' ∧ rest = [] then some [s1 * 4 + s2 / 16] else none
      else
        match d64 c3 with
        | some s3 =>
          if c4 = '=' then
            if rest = [] then some [s1 * 4 + s2 / 16, s2 % 16 * 16 + s3 / 4]
            else none
          else
            match d64 c4 with
            | some s4 =>
              (decB64 rest).map (fun tl =>
                (s1 * 4 + s2 / 16) :: (s2 % 16 * 16 + s3 / 4) ::
                  (s3 % 4 * 64 + s4) :: tl)
            | none => none
        | none => none
    | _, _ => none
  | _ => none

theorem decB64_encB64 : ∀ (bs : List Nat), (∀ b ∈ bs, b < 256) →
    decB64 (encB64 bs) = some bs
  | [], _ => rfl
  | [a], h => by
    have ha : a < 256 := h a (by simp)
    have h1 : d64 (c64 (a / 4)) = some (a / 4) := d64_c64 _ (by omega)
    have h2 : d64 (c64 (a % 4 * 16)) = some (a % 4 * 16) := d64_c64 _ (by omega)
    simp [encB64, decB64, h1, h2]
    omega
  | [a, b], h => by
    have ha : a < 256 := h a (by simp)
    have hb : b < 256 := h b (by simp)
    have h1 : d64 (c64 (a / 4)) = some (a / 4) := d64_c64 _ (by omega)
    have h2 : d64 (c64 (a % 4 * 16 + b / 16)) = some (a % 4 * 16 + b / 16) :=
      d64_c64 _ (by omega)
    have h3 : d64 (c64 (b % 16 * 4)) = some (b % 16 * 4) := d64_c64 _ (by omega)
    have h3ne : c64 (b % 16 * 4) ≠ '=' := c64_ne_pad _ (by omega)
    simp [encB64, decB64, h1, h2, h3, h3ne]
    omega
  | a :: b :: c :: rest, h => by
    have ha : a < 256 := h a (by simp)
    have hb : b < 256 := h b (by simp)
    have hc : c < 256 := h c (by simp)
    have h1 : d64 (c64 (a / 4)) = some (a / 4) := d64_c64 _ (by omega)
    have h2 : d64 (c64 (a % 4 * 16 + b / 16)) = some (a % 4 * 16 + b / 16) :=
      d64_c64 _ (by omega)
    have h3 : d64 (c64 (b % 16 * 4 + c / 64)) = some (b % 16 * 4 + c / 64) :=
      d64_c64 _ (by omega)
    have h4 : d64 (c64 (c % 64)) = some (c % 64) := d64_c64 _ (by omega)
    have h3ne : c64 (b % 16 * 4 + c / 64) ≠ '=' := c64_ne_pad _ (by omega)
    have h4ne : c64 (c % 64) ≠ '=' := c64_ne_pad _ (by omega)
    have ih : decB64 (encB64 rest) = some rest :=
      decB64_encB64 rest (fun x hx => h x (by simp [hx]))
    simp [encB64, decB64, h1, h2, h3, h4, h3ne, h4ne, ih]
    omega

/-- Python `str.encode()` for ASCII text: one byte per character. -/
def strBytes (cs : List Char) : List Nat := cs.map Char.toNat

/-- Python `bytes.decode()`: one character per byte. -/
def strOfBytes (bs : List Nat) : List Char := bs.map Char.ofNat

theorem strOfBytes_strBytes (cs : List Char) : strOfBytes (strBytes cs) = cs := by
  induction cs with
  | nil => rfl
  | cons c tl ih =>
    show Char.ofNat c.toNat :: strOfBytes (strBytes tl) = c :: tl
    rw [Char.ofNat_toNat, ih]

/-- The opening brace character. -/
def lbrace : Char := Char.ofNat 123

/-- The closing brace character. -/
def rbrace : Char := Char.ofNat 125

/-- A DynamoDB `LastEvaluatedKey` as the codec sees it: a flat dictionary of
string attribute values. -/
abbrev Cursor := List (String × String)

/-- A character `json.dumps` emits unescaped inside a string literal:
printable ASCII other than the quote and the backslash. -/
def PlainChar (c : Char) : Prop :=
  c ≠ '"' ∧ c ≠ '\\' ∧ 31 < c.toNat ∧ c.toNat < 127

instance : DecidablePred PlainChar := fun c => by
  unfold PlainChar
  infer_instance

/-- A string `json.dumps` serializes without escapes. -/
def PlainStr (s : String) : Prop := ∀ c ∈ s.data, PlainChar c

instance (s : String) : Decidable (PlainStr s) := by
  unfold PlainStr
  infer_instance

/-- A valid cursor for the codec model: every key and value is an
escape-free ASCII string, as DynamoDB key attributes are in this schema. -/
def ValidCursor (cur : Cursor) : Prop := ∀ kv ∈ cur, PlainStr kv.1 ∧ PlainStr kv.2

instance (cur : Cursor) : Decidable (ValidCursor cur) := by
  unfold ValidCursor
  infer_instance

/-- One `"key": "value"` entry of `json.dumps` output. -/
def jdumpsEntry (kv : String × String) : List Char :=
  '"' :: (kv.1.data ++ '"' :: ':' :: ' ' :: '"' :: (kv.2.data ++ ['"']))

/-- The entries of `json.dumps` output, joined by the default `", "`
separator. -/
def jdumpsEntries : Cursor → List Char
  | [] => []
  | [kv] => jdumpsEntry kv
  | kv :: rest => jdumpsEntry kv ++ ',' :: ' ' :: jdumpsEntries rest

/-- `json.dumps` on a flat string dictionary. -/
def jdumps (cur : Cursor) : List Char := lbrace :: (jdumpsEntries cur ++ [rbrace])

/-- Read characters up to the closing quote of a string literal. -/
def pQuotedGo : List Char → Option (List Char × List Char)
  | [] => none
  | c :: rest =>
    if c = '"' then some ([], rest)
    else (pQuotedGo rest).map (fun p => (c :: p.1, p.2))

/-- Read one quoted string literal. -/
def pQuoted : List Char → Option (List Char × List Char)
  | [] => none
  | c :: rest => if c = '"' then pQuotedGo rest else none

/-- Read one `"key": "value"` entry. -/
def pEntry (cs : List Char) : Option ((String × String) × List Char) :=
  match pQuoted cs with
  | none => none
  | some (k, r1) =>
    match r1 with
    | ':' :: ' ' :: r2 =>
      match pQuoted r2 with
      | none => none
      | some (v, r3) => some ((String.mk k, String.mk v), r3)
    | _ => none

/-- Read `", "`-separated entries up to the closing brace; the fuel bounds
the recursion by the input length. -/
def pEntries : Nat → List Char → Option Cursor
  | 0, _ => none
  | fuel + 1, cs =>
    match pEntry cs with
    | none => none
    | some (kv, rest) =>
      if rest = [rbrace] then some [kv]
      else
        match rest with
        | ',' :: ' ' :: rest2 => (pEntries fuel rest2).map (kv :: ·)
        | _ => none

/-- `json.loads` on the output shape of `jdumps`: a brace-delimited flat
string dictionary; anything else fails with `none`. -/
def jparse (cs : List Char) : Option Cursor :=
  match cs with
  | [] => none
  | c :: rest =>
    if c = lbrace then
      if rest = [rbrace] then some []
      else pEntries rest.length rest
    else none

theorem string_mk_data : ∀ s : String, String.mk s.data = s
  | ⟨_⟩ => rfl

theorem pQuotedGo_append (s rest : List Char) (h : ∀ c ∈ s, c ≠ '"') :
    pQuotedGo (s ++ '"' :: rest) = some (s, rest) := by
  induction s with
  | nil => simp [pQuotedGo]
  | cons c tl ih =>
    have hc : c ≠ '"' := h c (List.mem_cons_self c tl)
    simp [pQuotedGo, hc, ih (fun x hx => h x (List.mem_cons_of_mem c hx))]

theorem pQuoted_quote (s rest : List Char) (h : ∀ c ∈ s, c ≠ '"') :
    pQuoted ('"' :: (s ++ '"' :: rest)) = some (s, rest) := by
  simp [pQuoted, pQuotedGo_append s rest h]

theorem pEntry_dumps (kv : String × String) (rest : List Char)
    (hk : ∀ c ∈ kv.1.data, c ≠ '"') (hv : ∀ c ∈ kv.2.data, c ≠ '"') :
    pEntry (jdumpsEntry kv ++ rest) = some (kv, rest) := by
  have e1 : jdumpsEntry kv ++ rest =
      '"' :: (kv.1.data ++ '"' ::
        (':' :: ' ' :: ('"' :: (kv.2.data ++ '"' :: rest)))) := by
    simp [jdumpsEntry]
  rw [e1]
  simp only [pEntry, pQuoted_quote _ _ hk, pQuoted_quote _ _ hv, string_mk_data]

theorem comma_ne_rbrace : (',' : Char) ≠ rbrace := by decide

theorem quote_ne_rbrace : ('"' : Char) ≠ rbrace := by decide

theorem pEntries_dumps : ∀ (cur : Cursor) (fuel : Nat), cur ≠ [] →
    cur.length ≤ fuel →
    (∀ kv ∈ cur, (∀ c ∈ kv.1.data, c ≠ '"') ∧ (∀ c ∈ kv.2.data, c ≠ '"')) →
    pEntries fuel (jdumpsEntries cur ++ [rbrace]) = some cur
  | [], _, hne, _, _ => absurd rfl hne
  | [kv], fuel, _, hfuel, h => by
    simp only [List.length_singleton] at hfuel
    obtain ⟨f, rfl⟩ : ∃ f, fuel = f + 1 := ⟨fuel - 1, by omega⟩
    have hkv := h kv (by simp)
    simp [jdumpsEntries, pEntries, pEntry_dumps kv [rbrace] hkv.1 hkv.2]
  | kv :: kv2 :: tl, fuel, _, hfuel, h => by
    simp only [List.length_cons] at hfuel
    obtain ⟨f, rfl⟩ : ∃ f, fuel = f + 1 := ⟨fuel - 1, by omega⟩
    have hkv := h kv (by simp)
    have hrest : jdumpsEntries (kv :: kv2 :: tl) ++ [rbrace] =
        jdumpsEntry kv ++ (',' :: ' ' :: (jdumpsEntries (kv2 :: tl) ++ [rbrace])) := by
      simp [jdumpsEntries]
    have hne2 : (',' :: ' ' :: (jdumpsEntries (kv2 :: tl) ++ [rbrace])) ≠
        [rbrace] := by
      intro hc
      exact comma_ne_rbrace (List.cons.inj hc).1
    have ih : pEntries f (jdumpsEntries (kv2 :: tl) ++ [rbrace]) =
        some (kv2 :: tl) :=
      pEntries_dumps (kv2 :: tl) f (by simp) (by simp only [List.length_cons]; omega)
        (fun x hx => h x (List.mem_cons_of_mem kv hx))
    rw [hrest]
    simp [pEntries, pEntry_dumps kv _ hkv.1 hkv.2, hne2, ih]

theorem jdumpsEntries_length : ∀ cur : Cursor,
    cur.length ≤ (jdumpsEntries cur).length + 1
  | [] => by simp
  | [kv] => by simp
  | kv :: kv2 :: tl => by
    have ih := jdumpsEntries_length (kv2 :: tl)
    simp only [jdumpsEntries, List.length_append, List.length_cons] at ih ⊢
    omega

theorem jdumpsEntries_cons_quote (kv : String × String) (tl : Cursor) :
    ∃ t, jdumpsEntries (kv :: tl) = '"' :: t := by
  cases tl with
  | nil => exact ⟨_, rfl⟩
  | cons kv2 tl2 => exact ⟨_, rfl⟩

theorem jparse_jdumps (cur : Cursor)
    (h : ∀ kv ∈ cur, (∀ c ∈ kv.1.data, c ≠ '"') ∧ (∀ c ∈ kv.2.data, c ≠ '"')) :
    jparse (jdumps cur) = some cur := by
  cases cur with
  | nil => simp [jparse, jdumps, jdumpsEntries]
  | cons kv tl =>
    obtain ⟨t, ht⟩ := jdumpsEntries_cons_quote kv tl
    have hne : jdumpsEntries (kv :: tl) ++ [rbrace] ≠ [rbrace] := by
      rw [ht]
      intro hc
      exact quote_ne_rbrace (List.cons.inj hc).1
    have hp : pEntries ((jdumpsEntries (kv :: tl)).length + 1)
        (jdumpsEntries (kv :: tl) ++ [rbrace]) = some (kv :: tl) :=
      pEntries_dumps (kv :: tl) _ (by simp) (jdumpsEntries_length (kv :: tl)) h
    simp [jparse, jdumps, hne, hp]

theorem jdumpsEntry_bytes (kv : String × String) (h1 : PlainStr kv.1)
    (h2 : PlainStr kv.2) : ∀ c ∈ jdumpsEntry kv, c.toNat < 256 := by
  have hf1 : ∀ c ∈ kv.1.data, c.toNat < 256 := fun c hc =>
    Nat.lt_of_lt_of_le (h1 c hc).2.2.2 (by omega)
  have hf2 : ∀ c ∈ kv.2.data, c.toNat < 256 := fun c hc =>
    Nat.lt_of_lt_of_le (h2 c hc).2.2.2 (by omega)
  simp only [jdumpsEntry, List.forall_mem_cons, List.forall_mem_append,
    List.forall_mem_singleton]
  exact ⟨by decide, hf1, by decide, by decide, by decide, by decide, hf2, by decide⟩

theorem jdumpsEntries_bytes : ∀ cur : Cursor,
    (∀ kv ∈ cur, PlainStr kv.1 ∧ PlainStr kv.2) →
    ∀ c ∈ jdumpsEntries cur, c.toNat < 256
  | [], _ => by simp [jdumpsEntries]
  | [kv], h => by
    have hkv := h kv (by simp)
    simpa [jdumpsEntries] using jdumpsEntry_bytes kv hkv.1 hkv.2
  | kv :: kv2 :: tl, h => by
    have hkv := h kv (by simp)
    have ih := jdumpsEntries_bytes (kv2 :: tl)
      (fun x hx => h x (List.mem_cons_of_mem kv hx))
    simp only [jdumpsEntries, List.forall_mem_append, List.forall_mem_cons]
    exact ⟨jdumpsEntry_bytes kv hkv.1 hkv.2, by decide, by decide, ih⟩

theorem jdumps_bytes (cur : Cursor)
    (h : ∀ kv ∈ cur, PlainStr kv.1 ∧ PlainStr kv.2) :
    ∀ c ∈ jdumps cur, c.toNat < 256 := by
  simp only [jdumps, List.forall_mem_cons, List.forall_mem_append,
    List.forall_mem_singleton]
  exact ⟨by decide, jdumpsEntries_bytes cur h, by decide⟩

/-- `encode_pagination_token` (list_donations.py lines 28-39):
`base64.b64encode(json.dumps(last_key).encode()).decode()`. -/
def encode_pagination_token (cur : Cursor) : List Char :=
  encB64 (strBytes (jdumps cur))

/-- `decode_pagination_token` (list_donations.py lines 42-56):
`json.loads(base64.b64decode(token.encode()).decode())` with every failure
mapped to the sentinel `None` by the surrounding `try`/`except`.  The
function is total: it returns an `Option` and can raise nothing. -/
def decode_pagination_token (token : List Char) : Option Cursor :=
  match decB64 token with
  | none => none
  | some bs => jparse (strOfBytes bs)

/-- Claim C2: the pagination token codec round-trips — for every valid
cursor, decoding the encoded token yields the cursor back — and a malformed
token yields the sentinel `none` rather than an exception (`%` is not a
base64 character); `decode_pagination_token` is a total function into
`Option`, so it can never raise. -/
theorem pagination_token_roundtrip (cur : Cursor) (h : ValidCursor cur) :
    decode_pagination_token (encode_pagination_token cur) = some cur ∧
    decode_pagination_token ['%'] = none := by
  constructor
  · have hbytes : ∀ b ∈ strBytes (jdumps cur), b < 256 := by
      intro b hb
      simp only [strBytes, List.mem_map] at hb
      obtain ⟨c, hc, rfl⟩ := hb
      exact jdumps_bytes cur h c hc
    have hq : ∀ kv ∈ cur, (∀ c ∈ kv.1.data, c ≠ '"') ∧ (∀ c ∈ kv.2.data, c ≠ '"') :=
      fun kv hkv => ⟨fun c hc => ((h kv hkv).1 c hc).1,
        fun c hc => ((h kv hkv).2 c hc).1⟩
    simp only [decode_pagination_token, encode_pagination_token,
      decB64_encB64 _ hbytes, strOfBytes_strBytes, jparse_jdumps cur hq]
  · rfl

/-- Concrete instance of claim C2: a two-attribute `LastEvaluatedKey`
round-trips through the codec. -/
theorem pagination_token_roundtrip_witness :
    ValidCursor [("PK", "DONATION#ab12"), ("SK", "METADATA")] ∧
    decode_pagination_token (encode_pagination_token
      [("PK", "DONATION#ab12"), ("SK", "METADATA")]) =
      some [("PK", "DONATION#ab12"), ("SK", "METADATA")] :=
  ⟨by decide, (pagination_token_roundtrip _ (by decide)).1⟩
